import Mathlib

/-!
Formal model of the dispatch and vehicle state-machine core of the
dynamic emergency-response vehicle-routing simulator
(`src/Projectv0.1/main.py`).

Coordinates are latitude/longitude pairs.  The source performs exact
decimal arithmetic on them for movement (`move_toward`) and feeds them
through trigonometric functions for distances (`haversine`); we model
coordinates over `ℚ` (decimal literals are exact rationals) and distances
over `ℝ`.  Wall-clock instants (`time.time()`) are modelled as `ℚ`.

Python's built-in `min(xs, key=f)` keeps the first element attaining the
minimal key (later elements replace the running best only on a strictly
smaller key); `pyMinBy` models exactly that scan.
-/

namespace DERVRS

/-- A latitude/longitude pair. -/
abbrev Coord : Type := ℚ × ℚ

/-- The five life-cycle states of an ambulance, the string states
`"available" | "en-route" | "at accident" | "to-hospital" | "returning"`
of the source. -/
inductive VState where
  | available
  | enRoute
  | atAccident
  | toHospital
  | returning
deriving DecidableEq, Repr

/-- `UPDATE_INTERVAL = 5` (seconds between ticks). -/
def UPDATE_INTERVAL : ℚ := 5

/-- Arrival tolerance used by `Ambulance.move_toward`: both coordinate
deltas under `0.0005` count as arrived. -/
def ARRIVAL_EPS : ℚ := 0.0005

/-- The movement step fraction (the `step_fraction=0.2` default of
`Ambulance.move_toward`; every call site uses the default). -/
def STEP_FRACTION : ℚ := 0.2

/-- A hospital: name and coordinate, from the static `HOSPITALS` table. -/
structure Hospital where
  name : String
  lat : ℚ
  lon : ℚ

/-- The static list of 20 Mumbai hospitals of the source. -/
def HOSPITALS : List Hospital :=
  [⟨"KEM Hospital", 19.0176, 72.8562⟩,
   ⟨"Lilavati Hospital", 19.0738, 72.8400⟩,
   ⟨"Hiranandani Hospital Powai", 19.1255, 72.8789⟩,
   ⟨"Bombay Hospital", 19.0340, 72.8333⟩,
   ⟨"J.J. Hospital", 19.0333, 72.8375⟩,
   ⟨"S.L. Raheja Hospital", 19.0921, 72.8852⟩,
   ⟨"P.D. Hinduja Hospital", 19.0728, 72.8594⟩,
   ⟨"Seven Hills Hospital", 19.0916, 72.8645⟩,
   ⟨"Breach Candy Hospital", 19.0230, 72.8330⟩,
   ⟨"Holy Family Hospital", 19.0413, 72.8450⟩,
   ⟨"Jaslok Hospital", 19.0628, 72.8321⟩,
   ⟨"Nanavati Hospital", 19.0460, 72.8544⟩,
   ⟨"Wockhardt Hospital", 19.0765, 72.8772⟩,
   ⟨"Tata Memorial Hospital", 19.0439, 72.8331⟩,
   ⟨"Sassoon General Hospital", 19.0360, 72.8340⟩,
   ⟨"Tilak Municipal Medical College", 19.0710, 72.8750⟩,
   ⟨"R.C. Patel Hospital", 19.0335, 72.8570⟩,
   ⟨"Jupiter Hospital", 19.0750, 72.8750⟩,
   ⟨"Saifee Hospital", 19.0570, 72.8460⟩,
   ⟨"Hiranandani Hospital Andheri", 19.1190, 72.8460⟩]

/-- The ten fixed ambulance base positions. -/
def AMBULANCE_BASES : List Coord :=
  [(19.00, 72.82), (19.00, 72.87), (19.02, 72.90), (19.04, 72.93),
   (19.06, 72.88), (19.08, 72.91), (19.10, 72.87), (19.12, 72.90),
   (19.14, 72.93), (19.16, 72.95)]

/-- The two vulnerable (preferred) bases of the source. -/
def VULNERABLE_BASES : List Coord :=
  [(19.00, 72.82), (19.16, 73.00)]

/-- `math.radians`: degrees to radians. -/
noncomputable def radians (x : ℝ) : ℝ := x * Real.pi / 180

/-- The `haversine` function of the source: great-circle distance in
kilometers between two latitude/longitude pairs. -/
noncomputable def haversine (coord1 coord2 : Coord) : ℝ :=
  let lat1 : ℝ := (coord1.1 : ℝ)
  let lon1 : ℝ := (coord1.2 : ℝ)
  let lat2 : ℝ := (coord2.1 : ℝ)
  let lon2 : ℝ := (coord2.2 : ℝ)
  let R : ℝ := 6371
  let dlat := radians (lat2 - lat1)
  let dlon := radians (lon2 - lon1)
  let a := Real.sin (dlat / 2) ^ 2 +
    Real.cos (radians lat1) * Real.cos (radians lat2) * Real.sin (dlon / 2) ^ 2
  let c := 2 * Real.arcsin (Real.sqrt a)
  R * c

/-- One step of Python's built-in `min` scan: keep `best` unless the new
element's key is strictly smaller, so the first minimum wins ties. -/
noncomputable def pyMinStep {α : Type*} (f : α → ℝ) (best y : α) : α :=
  if f y < f best then y else best

/-- Python's `min(xs, key=f)`: `none` on the empty list (Python raises
`ValueError` there), otherwise the first element of `xs` attaining the
minimal key. -/
noncomputable def pyMinBy {α : Type*} (f : α → ℝ) : List α → Option α
  | [] => none
  | x :: xs => some (xs.foldl (pyMinStep f) x)

/-- `get_preferred_base` of the source:
`min(VULNERABLE_BASES, key=lambda base: haversine(current_position, base))`.
(Defined in the source but never called by it.) -/
noncomputable def get_preferred_base (current_position : Coord) : Option Coord :=
  pyMinBy (fun base => haversine current_position base) VULNERABLE_BASES

/-- `get_nearest_hospital` of the source: scan `HOSPITALS` keeping the first
hospital whose distance is strictly below the running minimum; the running
minimum starts at infinity, modelled by the accumulator starting at `none`
(any first distance beats infinity). -/
noncomputable def get_nearest_hospital (position : Coord) : Option Coord :=
  (HOSPITALS.foldl
    (fun acc hosp =>
      match acc with
      | none => some ((hosp.lat, hosp.lon), haversine position (hosp.lat, hosp.lon))
      | some (nearest, min_dist) =>
          if haversine position (hosp.lat, hosp.lon) < min_dist then
            some ((hosp.lat, hosp.lon), haversine position (hosp.lat, hosp.lon))
          else
            some (nearest, min_dist))
    none).map Prod.fst

/-- The mutable fields of an `Ambulance` object (the `route`/`route_length`
cache and the display timestamp carry no decision logic and are omitted).
`ambulance_id` models the `"EV_{i+1}"` identifier by the number `i+1`. -/
structure Ambulance where
  ambulance_id : Nat
  base_position : Coord
  current_pos : Coord
  destination : Coord
  state : VState
  dispatch_time : Option ℚ
deriving DecidableEq

/-- `Ambulance.__init__`: starts `available` at its base, destination its
base, with no dispatch time. -/
def init_ambulance (ambulance_id : Nat) (base_position : Coord) : Ambulance :=
  { ambulance_id := ambulance_id
    base_position := base_position
    current_pos := base_position
    destination := base_position
    state := VState.available
    dispatch_time := none }

/-- The global `METRICS` dictionary. -/
structure Metrics where
  total_accidents : Nat
  total_dispatches : Nat
  total_response_time : ℚ
  total_hospital_dropoffs : Nat
deriving DecidableEq

/-- One entry of the global `EVENT_LOG`, one constructor per
`EVENT_LOG.append` site of the source (the human-readable strings are
abstracted to their payloads). -/
inductive Event where
  | dispatching (id : Nat) (loc : Coord)
  | reassigning (id : Nat) (loc : Coord)
  | noAmbulance (loc : Coord)
  | responded (id : Nat) (response_time : ℚ)
  | arrivedAtAccident (id : Nat)
  | loadingPatient (id : Nat)
  | dispatchedToHospital (id : Nat) (dest : Coord)
  | arrivedAtHospital (id : Nat)
  | reassignedToAccident (id : Nat) (loc : Coord)
  | returningToBase (id : Nat) (base : Coord)
  | availableAtBase (id : Nat) (loc : Coord)
deriving DecidableEq

/-- The global mutable state shared by every thread: `METRICS`,
`EVENT_LOG` and `ACCIDENT_TIMESTAMPS`. -/
structure Globals where
  metrics : Metrics
  event_log : List Event
  accident_timestamps : List ℚ
deriving DecidableEq

/-- `EVENT_LOG.append(e)`: the log grows at the tail and is never
truncated anywhere in the source. -/
def event_log_append (log : List Event) (e : Event) : List Event :=
  log ++ [e]

/-- The `events = EVENT_LOG[-10:][::-1]` view computed by the `/dashboard`
route: the last (at most) 10 entries, newest first. -/
def dashboard_events (log : List Event) : List Event :=
  (log.drop (log.length - 10)).reverse

/-- The average response time shown by the dashboard:
`total_response_time / total_dispatches` when `total_dispatches > 0`,
otherwise `0`. -/
def average_response_time (m : Metrics) : ℚ :=
  if 0 < m.total_dispatches then m.total_response_time / (m.total_dispatches : ℚ) else 0

/-- `Ambulance.move_toward(target)`: returns the new `current_pos` together
with the arrival flag.  If both coordinate deltas are under `ARRIVAL_EPS`
in absolute value the position snaps exactly to the target and the step
reports arrival; otherwise the position advances by the fixed fraction
`STEP_FRACTION` of each remaining delta. -/
def move_toward (current_pos target : Coord) : Coord × Bool :=
  let dlat := target.1 - current_pos.1
  let dlon := target.2 - current_pos.2
  if |dlat| < ARRIVAL_EPS ∧ |dlon| < ARRIVAL_EPS then
    (target, true)
  else
    ((current_pos.1 + STEP_FRACTION * dlat, current_pos.2 + STEP_FRACTION * dlon), false)

/-- Bookkeeping shared by every branch of `FleetManager.dispatch_accident`:
`METRICS["total_accidents"] += 1` and `ACCIDENT_TIMESTAMPS.append(now)`. -/
def record_accident (g : Globals) (now : ℚ) : Globals :=
  { g with
    metrics := { g.metrics with total_accidents := g.metrics.total_accidents + 1 }
    accident_timestamps := g.accident_timestamps ++ [now] }

/-- The mutation `FleetManager.dispatch_accident` applies to the selected
ambulance: destination, state and dispatch time. -/
def dispatch_update (amb : Ambulance) (accident_location : Coord) (now : ℚ) : Ambulance :=
  { amb with
    destination := accident_location
    state := VState.enRoute
    dispatch_time := some now }

/-- `FleetManager.dispatch_accident`: try the `available` ambulances first,
then the `returning` ones, each time taking Python's `min` by haversine
distance to the accident; mutate the selected ambulance and return it, or
return `none` when both pools are empty.  The fleet list is indexed
(`List.enum`) so that the in-place mutation of the selected object can be
rendered as `List.set` at its roster position. -/
noncomputable def dispatch_accident (fleet : List Ambulance) (g : Globals)
    (accident_location : Coord) (now : ℚ) :
    List Ambulance × Globals × Option Ambulance :=
  let available := fleet.enum.filter (fun p => p.2.state = VState.available)
  match pyMinBy (fun p => haversine p.2.current_pos accident_location) available with
  | some (i, best) =>
      (fleet.set i (dispatch_update best accident_location now),
       record_accident
         { g with event_log := event_log_append g.event_log (.dispatching best.ambulance_id accident_location) }
         now,
       some (dispatch_update best accident_location now))
  | none =>
    let returning := fleet.enum.filter (fun p => p.2.state = VState.returning)
    match pyMinBy (fun p => haversine p.2.current_pos accident_location) returning with
    | some (i, best) =>
        (fleet.set i (dispatch_update best accident_location now),
         record_accident
           { g with event_log := event_log_append g.event_log (.reassigning best.ambulance_id accident_location) }
           now,
         some (dispatch_update best accident_location now))
    | none =>
        (fleet,
         record_accident
           { g with event_log := event_log_append g.event_log (.noAmbulance accident_location) }
           now,
         none)

/-- The candidate pool described by the specification, stated over the
indexed roster: the `available` ambulances, or the `returning` ones when no
ambulance is available.  (Statement-side companion of `dispatch_accident`,
used to express the selection claim.) -/
def specCandidatePool (fleet : List Ambulance) : List (Nat × Ambulance) :=
  let available := fleet.enum.filter (fun p => p.2.state = VState.available)
  if available = [] then
    fleet.enum.filter (fun p => p.2.state = VState.returning)
  else
    available

/-- The `en-route` branch of `Ambulance.run`: one movement step; on arrival,
if a dispatch time is set, add the response time `now - dispatch_time` to
the metrics, count the dispatch, log it and clear the dispatch time; then
enter `at accident`. -/
def en_route_tick (amb : Ambulance) (g : Globals) (now : ℚ) : Ambulance × Globals :=
  let m := move_toward amb.current_pos amb.destination
  let amb1 := { amb with current_pos := m.1 }
  if m.2 then
    match amb1.dispatch_time with
    | some t0 =>
        ({ amb1 with state := VState.atAccident, dispatch_time := none },
         { g with
           metrics := { g.metrics with
             total_response_time := g.metrics.total_response_time + (now - t0)
             total_dispatches := g.metrics.total_dispatches + 1 }
           event_log := event_log_append (event_log_append g.event_log (.responded amb.ambulance_id (now - t0))) (.arrivedAtAccident amb.ambulance_id) })
    | none =>
        ({ amb1 with state := VState.atAccident },
         { g with event_log := event_log_append g.event_log (.arrivedAtAccident amb.ambulance_id) })
  else
    (amb1, g)

/-- The `at accident` branch of `Ambulance.run`: after the fixed on-scene
delay, head for the nearest hospital.  (`get_nearest_hospital` always
returns a hospital since `HOSPITALS` is non-empty; on an empty table the
source would set the destination to Python's `None`, an unreachable case in
which we leave the destination unchanged.) -/
noncomputable def at_accident_tick (amb : Ambulance) (g : Globals) : Ambulance × Globals :=
  match get_nearest_hospital amb.current_pos with
  | some new_dest =>
      ({ amb with state := VState.toHospital, destination := new_dest },
       { g with event_log := event_log_append (event_log_append g.event_log (.loadingPatient amb.ambulance_id)) (.dispatchedToHospital amb.ambulance_id new_dest) })
  | none =>
      ({ amb with state := VState.toHospital },
       { g with event_log := event_log_append g.event_log (.loadingPatient amb.ambulance_id) })

/-- The body executed once a `to-hospital` ambulance has arrived: count the
drop-off; after the fixed drop-off delay, either re-dispatch to the nearest
open accident (state `en-route`, dispatch time reset) or return to the
ambulance's own `base_position` (state `returning`). -/
noncomputable def hospital_arrival (amb : Ambulance) (accidents : List Coord)
    (g : Globals) (now : ℚ) : Ambulance × Globals :=
  let g1 :=
    { g with
      metrics := { g.metrics with
        total_hospital_dropoffs := g.metrics.total_hospital_dropoffs + 1 }
      event_log := event_log_append g.event_log (.arrivedAtHospital amb.ambulance_id) }
  match pyMinBy (fun loc => haversine amb.current_pos loc) accidents with
  | some nearest_acc =>
      ({ amb with destination := nearest_acc, state := VState.enRoute, dispatch_time := some now },
       { g1 with event_log := event_log_append g1.event_log (.reassignedToAccident amb.ambulance_id nearest_acc) })
  | none =>
      ({ amb with destination := amb.base_position, state := VState.returning },
       { g1 with event_log := event_log_append g1.event_log (.returningToBase amb.ambulance_id amb.base_position) })

/-- The `to-hospital` branch of `Ambulance.run`: one movement step; on
arrival run `hospital_arrival` against the current open-accident list. -/
noncomputable def to_hospital_tick (amb : Ambulance) (accidents : List Coord)
    (g : Globals) (now : ℚ) : Ambulance × Globals :=
  let m := move_toward amb.current_pos amb.destination
  let amb1 := { amb with current_pos := m.1 }
  if m.2 then hospital_arrival amb1 accidents g now else (amb1, g)

/-- The `returning` branch of `Ambulance.run`: one movement step; on arrival
become `available`. -/
def returning_tick (amb : Ambulance) (g : Globals) : Ambulance × Globals :=
  let m := move_toward amb.current_pos amb.destination
  let amb1 := { amb with current_pos := m.1 }
  if m.2 then
    ({ amb1 with state := VState.available },
     { g with event_log := event_log_append g.event_log (.availableAtBase amb.ambulance_id amb1.destination) })
  else
    (amb1, g)

/-- What can happen to one ambulance: a `dispatch_accident` call selecting
it, or one iteration of its own `run` loop (a tick, at wall-clock `now`,
against the open-accident list `accidents`). -/
inductive StepLabel where
  | dispatch (loc : Coord) (now : ℚ)
  | tick (accidents : List Coord) (now : ℚ)

/-- The labelled transition relation of a single ambulance, read off the
source: the dispatcher mutates an `available` or `returning` ambulance into
`en-route`; each `run` iteration executes the branch of the current state.
The global state `g` only receives the branch's side effects, so the
resulting ambulance does not depend on it. -/
inductive Step : StepLabel → Ambulance → Ambulance → Prop where
  | dispatch_available (amb : Ambulance) (loc : Coord) (now : ℚ) :
      amb.state = VState.available →
      Step (.dispatch loc now) amb (dispatch_update amb loc now)
  | dispatch_returning (amb : Ambulance) (loc : Coord) (now : ℚ) :
      amb.state = VState.returning →
      Step (.dispatch loc now) amb (dispatch_update amb loc now)
  | tick_available (amb : Ambulance) (accidents : List Coord) (now : ℚ) :
      amb.state = VState.available →
      Step (.tick accidents now) amb amb
  | tick_en_route (amb : Ambulance) (g : Globals) (accidents : List Coord) (now : ℚ) :
      amb.state = VState.enRoute →
      Step (.tick accidents now) amb (en_route_tick amb g now).1
  | tick_at_accident (amb : Ambulance) (g : Globals) (accidents : List Coord) (now : ℚ) :
      amb.state = VState.atAccident →
      Step (.tick accidents now) amb (at_accident_tick amb g).1
  | tick_to_hospital (amb : Ambulance) (g : Globals) (accidents : List Coord) (now : ℚ) :
      amb.state = VState.toHospital →
      Step (.tick accidents now) amb (to_hospital_tick amb accidents g now).1
  | tick_returning (amb : Ambulance) (g : Globals) (accidents : List Coord) (now : ℚ) :
      amb.state = VState.returning →
      Step (.tick accidents now) amb (returning_tick amb g).1

/-- Some step, under some label. -/
def AmbStep (a b : Ambulance) : Prop := ∃ l, Step l a b

/-- The states an ambulance can reach from `a` by any number of steps. -/
def ReachableFrom (a b : Ambulance) : Prop := Relation.ReflTransGen AmbStep a b

/-- A concrete ambulance fixture: ambulance 1 at base (0, 0). -/
def sample_ambulance : Ambulance := init_ambulance 1 ((0 : ℚ), (0 : ℚ))

/-- A concrete globals fixture: zero metrics, empty logs. -/
def sample_globals : Globals := ⟨⟨0, 0, 0, 0⟩, [], []⟩

/-- A concrete en-route ambulance fixture (no dispatch time). -/
def sample_busy : Ambulance := { sample_ambulance with state := VState.enRoute }

/-- A concrete ambulance fixture dispatched at time 0. -/
def sample_dispatched : Ambulance := { sample_ambulance with dispatch_time := some 0 }

/-! Helper lemmas about Python's `min` scan. -/

theorem pyFold_spec {α : Type*} (f : α → ℝ) :
    ∀ (xs : List α) (x : α),
      (∀ z ∈ x :: xs, f (xs.foldl (pyMinStep f) x) ≤ f z) ∧
      ∃ pre post, x :: xs = pre ++ (xs.foldl (pyMinStep f) x) :: post ∧
        ∀ z ∈ pre, f (xs.foldl (pyMinStep f) x) < f z := by
  intro xs
  induction xs with
  | nil =>
      intro x
      constructor
      · intro z hz
        rw [List.mem_singleton] at hz
        subst hz
        exact le_refl _
      · exact ⟨[], [], rfl, by simp⟩
  | cons y ys ih =>
      intro x
      by_cases h : f y < f x
      · have hstep : pyMinStep f x y = y := if_pos h
        have heq : (y :: ys).foldl (pyMinStep f) x = ys.foldl (pyMinStep f) y := by
          rw [List.foldl_cons, hstep]
        obtain ⟨hmin, pre, post, hdec, hpre⟩ := ih y
        rw [heq]
        constructor
        · intro z hz
          rcases List.mem_cons.mp hz with rfl | hz'
          · exact le_of_lt (lt_of_le_of_lt (hmin y (List.mem_cons_self y ys)) h)
          · exact hmin z hz'
        · refine ⟨x :: pre, post, ?_, ?_⟩
          · rw [List.cons_append, ← hdec]
          · intro z hz
            rcases List.mem_cons.mp hz with rfl | hz'
            · exact lt_of_le_of_lt (hmin y (List.mem_cons_self y ys)) h
            · exact hpre z hz'
      · have hstep : pyMinStep f x y = x := if_neg h
        have hxy : f x ≤ f y := le_of_not_lt h
        have heq : (y :: ys).foldl (pyMinStep f) x = ys.foldl (pyMinStep f) x := by
          rw [List.foldl_cons, hstep]
        obtain ⟨hmin, pre, post, hdec, hpre⟩ := ih x
        rw [heq]
        constructor
        · intro z hz
          rcases List.mem_cons.mp hz with rfl | hz'
          · exact hmin z (List.mem_cons_self z ys)
          · rcases List.mem_cons.mp hz' with rfl | hz''
            · exact le_trans (hmin x (List.mem_cons_self x ys)) hxy
            · exact hmin z (List.mem_cons_of_mem x hz'')
        · cases pre with
          | nil =>
              rw [List.nil_append] at hdec
              injection hdec with hx1 hx2
              refine ⟨[], y :: ys, ?_, by simp⟩
              rw [List.nil_append, ← hx1]
          | cons p ps =>
              rw [List.cons_append] at hdec
              injection hdec with hx1 hx2
              refine ⟨x :: y :: ps, post, ?_, ?_⟩
              · rw [List.cons_append, List.cons_append, ← hx2]
              · intro z hz
                have hrx : f (ys.foldl (pyMinStep f) x) < f x := by
                  have := hpre p (List.mem_cons_self p ps)
                  rw [← hx1] at this
                  exact this
                rcases List.mem_cons.mp hz with rfl | hz'
                · exact hrx
                · rcases List.mem_cons.mp hz' with rfl | hz''
                  · exact lt_of_lt_of_le hrx hxy
                  · exact hpre z (List.mem_cons_of_mem p hz'')

theorem pyMinBy_cons {α : Type*} (f : α → ℝ) (x : α) (xs : List α) :
    ∃ r, pyMinBy f (x :: xs) = some r ∧
      r ∈ x :: xs ∧
      (∀ z ∈ x :: xs, f r ≤ f z) ∧
      ∃ pre post, x :: xs = pre ++ r :: post ∧ ∀ z ∈ pre, f r < f z := by
  obtain ⟨hmin, pre, post, hdec, hpre⟩ := pyFold_spec f xs x
  refine ⟨xs.foldl (pyMinStep f) x, rfl, ?_, hmin, pre, post, hdec, hpre⟩
  rw [hdec]
  exact List.mem_append_right pre (List.mem_cons_self _ post)

theorem pyMinBy_mem {α : Type*} (f : α → ℝ) (l : List α) (r : α)
    (h : pyMinBy f l = some r) : r ∈ l := by
  cases l with
  | nil => simp [pyMinBy] at h
  | cons x xs =>
      obtain ⟨r', hr', hmem, -⟩ := pyMinBy_cons f x xs
      rw [hr'] at h
      injection h with h
      rw [← h]
      exact hmem

/-- C8: for all coordinates `a` and `b`, `haversine` is symmetric and
vanishes on equal arguments: `distance(a,b) = distance(b,a)` and
`distance(a,a) = 0`. -/
theorem haversine_symm_and_self_zero (a b : Coord) :
    haversine a b = haversine b a ∧ haversine a a = 0 := by
  constructor
  · have key : ∀ x y : ℝ,
        Real.sin ((y - x) * Real.pi / 180 / 2) ^ 2 =
          Real.sin ((x - y) * Real.pi / 180 / 2) ^ 2 := by
      intro x y
      rw [show (y - x) * Real.pi / 180 / 2 = -((x - y) * Real.pi / 180 / 2) by ring,
        Real.sin_neg]
      ring
    simp only [haversine, radians]
    rw [key ((a.1 : ℝ)) ((b.1 : ℝ)), key ((a.2 : ℝ)) ((b.2 : ℝ)),
      mul_comm (Real.cos ((a.1 : ℝ) * Real.pi / 180)) (Real.cos ((b.1 : ℝ) * Real.pi / 180))]
  · simp [haversine, radians]

/-- C5: a movement step snaps the position exactly to the target and
reports arrival precisely when both the latitude and longitude deltas are
below the arrival tolerance 0.0005 in absolute value; otherwise the new
position is the current position plus the fixed fraction 0.2 of each
remaining coordinate delta and the step reports not arrived. -/
theorem move_toward_step_characterization (current_pos target : Coord) :
    ((move_toward current_pos target).2 = true ↔
      |target.1 - current_pos.1| < 0.0005 ∧ |target.2 - current_pos.2| < 0.0005) ∧
    (move_toward current_pos target).1 =
      (if |target.1 - current_pos.1| < 0.0005 ∧ |target.2 - current_pos.2| < 0.0005 then
        target
      else
        (current_pos.1 + 0.2 * (target.1 - current_pos.1),
         current_pos.2 + 0.2 * (target.2 - current_pos.2))) := by
  by_cases h : |target.1 - current_pos.1| < 0.0005 ∧ |target.2 - current_pos.2| < 0.0005
  · simp [move_toward, ARRIVAL_EPS, STEP_FRACTION, h]
  · simp [move_toward, ARRIVAL_EPS, STEP_FRACTION, h]

/-- C9: once a movement step has snapped the position onto the destination
(the arrival branch sets the position to the destination exactly), every
further movement step toward that same destination leaves the position
unchanged. -/
theorem move_toward_idempotent_at_destination (current_pos target : Coord)
    (h : (move_toward current_pos target).2 = true) :
    (move_toward current_pos target).1 = target ∧
    ∀ n : Nat,
      (fun p => (move_toward p target).1)^[n] (move_toward current_pos target).1 =
        (move_toward current_pos target).1 := by
  have hsnap : (move_toward current_pos target).1 = target := by
    by_cases hc : |target.1 - current_pos.1| < ARRIVAL_EPS ∧
        |target.2 - current_pos.2| < ARRIVAL_EPS
    · simp [move_toward, hc]
    · simp [move_toward, hc] at h
  have hfix : (move_toward target target).1 = target := by
    simp only [move_toward]
    split_ifs with hc
    · rfl
    · exact absurd ⟨by rw [sub_self, abs_zero]; norm_num [ARRIVAL_EPS],
        by rw [sub_self, abs_zero]; norm_num [ARRIVAL_EPS]⟩ hc
  refine ⟨hsnap, ?_⟩
  intro n
  rw [hsnap]
  induction n with
  | zero => simp
  | succ k ihk =>
      simp only [Function.iterate_succ_apply]
      rw [hfix]
      exact ihk

/-- C10 counterexample: from position (0, 0) toward target (0, 1) the step
does not snap (the longitude delta is 1 ≥ 0.0005), yet the latitude delta
is 0 both before and after the step, so it does not strictly decrease. -/
theorem move_toward_shrink_counterexample :
    (move_toward ((0 : ℚ), (0 : ℚ)) ((0 : ℚ), (1 : ℚ))).2 = false ∧
    ¬ (|(0 : ℚ) - (move_toward ((0 : ℚ), (0 : ℚ)) ((0 : ℚ), (1 : ℚ))).1.1| <
        |(0 : ℚ) - (0 : ℚ)|) := by
  norm_num [move_toward, ARRIVAL_EPS, STEP_FRACTION]

/-- C10 (amended): a movement step that does not snap scales each remaining
coordinate offset by exactly 1 − 0.2 = 0.8; hence each coordinate's
absolute delta never increases, strictly decreases whenever that
coordinate's delta is nonzero, and the new position lies componentwise
between the old position and the target. -/
theorem move_toward_no_overshoot (current_pos target : Coord)
    (h : (move_toward current_pos target).2 = false) :
    target.1 - (move_toward current_pos target).1.1 = (1 - 0.2) * (target.1 - current_pos.1) ∧
    target.2 - (move_toward current_pos target).1.2 = (1 - 0.2) * (target.2 - current_pos.2) ∧
    |target.1 - (move_toward current_pos target).1.1| ≤ |target.1 - current_pos.1| ∧
    |target.2 - (move_toward current_pos target).1.2| ≤ |target.2 - current_pos.2| ∧
    (target.1 ≠ current_pos.1 →
      |target.1 - (move_toward current_pos target).1.1| < |target.1 - current_pos.1|) ∧
    (target.2 ≠ current_pos.2 →
      |target.2 - (move_toward current_pos target).1.2| < |target.2 - current_pos.2|) ∧
    min current_pos.1 target.1 ≤ (move_toward current_pos target).1.1 ∧
    (move_toward current_pos target).1.1 ≤ max current_pos.1 target.1 ∧
    min current_pos.2 target.2 ≤ (move_toward current_pos target).1.2 ∧
    (move_toward current_pos target).1.2 ≤ max current_pos.2 target.2 := by
  have hcond : ¬(|target.1 - current_pos.1| < ARRIVAL_EPS ∧
      |target.2 - current_pos.2| < ARRIVAL_EPS) := by
    intro hc
    simp [move_toward, hc] at h
  have hval : (move_toward current_pos target).1 =
      (current_pos.1 + STEP_FRACTION * (target.1 - current_pos.1),
       current_pos.2 + STEP_FRACTION * (target.2 - current_pos.2)) := by
    simp only [move_toward]
    rw [if_neg hcond]
  rw [hval]
  simp only [STEP_FRACTION]
  have e1 : target.1 - (current_pos.1 + 0.2 * (target.1 - current_pos.1)) =
      (1 - 0.2) * (target.1 - current_pos.1) := by ring
  have e2 : target.2 - (current_pos.2 + 0.2 * (target.2 - current_pos.2)) =
      (1 - 0.2) * (target.2 - current_pos.2) := by ring
  refine ⟨e1, e2, ?_, ?_, ?_, ?_, ?_, ?_, ?_, ?_⟩
  · rw [e1, abs_mul, show |(1 - 0.2 : ℚ)| = 1 - 0.2 by norm_num]
    nlinarith [abs_nonneg (target.1 - current_pos.1)]
  · rw [e2, abs_mul, show |(1 - 0.2 : ℚ)| = 1 - 0.2 by norm_num]
    nlinarith [abs_nonneg (target.2 - current_pos.2)]
  · intro hne
    rw [e1, abs_mul, show |(1 - 0.2 : ℚ)| = 1 - 0.2 by norm_num]
    nlinarith [abs_pos.mpr (sub_ne_zero.mpr hne)]
  · intro hne
    rw [e2, abs_mul, show |(1 - 0.2 : ℚ)| = 1 - 0.2 by norm_num]
    nlinarith [abs_pos.mpr (sub_ne_zero.mpr hne)]
  · rcases le_total current_pos.1 target.1 with hle | hle
    · rw [min_eq_left hle]; nlinarith
    · rw [min_eq_right hle]; nlinarith
  · rcases le_total current_pos.1 target.1 with hle | hle
    · rw [max_eq_right hle]; nlinarith
    · rw [max_eq_left hle]; nlinarith
  · rcases le_total current_pos.2 target.2 with hle | hle
    · rw [min_eq_left hle]; nlinarith
    · rw [min_eq_right hle]; nlinarith
  · rcases le_total current_pos.2 target.2 with hle | hle
    · rw [max_eq_right hle]; nlinarith
    · rw [max_eq_left hle]; nlinarith

theorem pyMinBy_select {α : Type*} (f : α → ℝ) (l : List α) (hl : l ≠ []) :
    ∃ r, pyMinBy f l = some r ∧ r ∈ l ∧ (∀ z ∈ l, f r ≤ f z) ∧
      ∃ pre post, l = pre ++ r :: post ∧ ∀ z ∈ pre, f r < f z := by
  obtain ⟨x, xs, rfl⟩ := List.exists_cons_of_ne_nil hl
  exact pyMinBy_cons f x xs

/-- C1: whenever the candidate pool (the `available` vehicles, or the
`returning` ones when no vehicle is available) is non-empty, dispatch
selects from it the vehicle of minimal haversine distance to the incident —
the first minimum in roster order on ties — sets its destination to the
incident location, its state to en-route, its dispatch time to now, and
returns it. -/
theorem dispatch_selects_nearest_candidate (fleet : List Ambulance) (g : Globals)
    (loc : Coord) (now : ℚ) (hpool : specCandidatePool fleet ≠ []) :
    ∃ i best,
      (i, best) ∈ specCandidatePool fleet ∧
      fleet[i]? = some best ∧
      (∀ p ∈ specCandidatePool fleet,
        haversine best.current_pos loc ≤ haversine p.2.current_pos loc) ∧
      (∃ pre post, specCandidatePool fleet = pre ++ (i, best) :: post ∧
        ∀ p ∈ pre, haversine best.current_pos loc < haversine p.2.current_pos loc) ∧
      (dispatch_accident fleet g loc now).1 = fleet.set i (dispatch_update best loc now) ∧
      (dispatch_accident fleet g loc now).2.2 = some (dispatch_update best loc now) ∧
      (dispatch_update best loc now).destination = loc ∧
      (dispatch_update best loc now).state = VState.enRoute ∧
      (dispatch_update best loc now).dispatch_time = some now := by
  by_cases ha : fleet.enum.filter (fun p => p.2.state = VState.available) = []
  · have hpooldef : specCandidatePool fleet =
        fleet.enum.filter (fun p => p.2.state = VState.returning) := by
      simp [specCandidatePool, ha]
    rw [hpooldef] at hpool
    obtain ⟨r, hr, hmem, hmin, pre, post, hdec, hpre⟩ :=
      pyMinBy_select (fun p => haversine p.2.current_pos loc) _ hpool
    refine ⟨r.1, r.2, ?_, ?_, ?_, ?_, ?_, ?_, rfl, rfl, rfl⟩
    · rw [hpooldef]; exact hmem
    · exact List.mem_enum_iff_getElem?.mp (List.mem_of_mem_filter hmem)
    · rw [hpooldef]; exact hmin
    · rw [hpooldef]; exact ⟨pre, post, hdec, hpre⟩
    · simp only [dispatch_accident]
      rw [ha, show (pyMinBy (fun p => haversine p.2.current_pos loc)
        ([] : List (ℕ × Ambulance))) = none from rfl, hr]
    · simp only [dispatch_accident]
      rw [ha, show (pyMinBy (fun p => haversine p.2.current_pos loc)
        ([] : List (ℕ × Ambulance))) = none from rfl, hr]
  · have hpooldef : specCandidatePool fleet =
        fleet.enum.filter (fun p => p.2.state = VState.available) := by
      simp [specCandidatePool, ha]
    obtain ⟨r, hr, hmem, hmin, pre, post, hdec, hpre⟩ :=
      pyMinBy_select (fun p => haversine p.2.current_pos loc) _ ha
    refine ⟨r.1, r.2, ?_, ?_, ?_, ?_, ?_, ?_, rfl, rfl, rfl⟩
    · rw [hpooldef]; exact hmem
    · exact List.mem_enum_iff_getElem?.mp (List.mem_of_mem_filter hmem)
    · rw [hpooldef]; exact hmin
    · rw [hpooldef]; exact ⟨pre, post, hdec, hpre⟩
    · simp only [dispatch_accident]
      rw [hr]
    · simp only [dispatch_accident]
      rw [hr]

/-- C3: when no vehicle is `available` and none is `returning`, dispatch
returns `none`, still increments the total-accident counter by exactly 1
(logging the unassigned accident), and leaves every vehicle — state,
destination and dispatch time — unchanged. -/
theorem dispatch_no_capacity (fleet : List Ambulance) (g : Globals) (loc : Coord) (now : ℚ)
    (h : ∀ amb ∈ fleet, amb.state ≠ VState.available ∧ amb.state ≠ VState.returning) :
    dispatch_accident fleet g loc now =
      (fleet,
       { g with
         metrics := { g.metrics with total_accidents := g.metrics.total_accidents + 1 }
         event_log := g.event_log ++ [Event.noAmbulance loc]
         accident_timestamps := g.accident_timestamps ++ [now] },
       none) := by
  have ha : fleet.enum.filter (fun p => p.2.state = VState.available) = [] := by
    rw [List.filter_eq_nil_iff]
    intro p hp
    simp only [decide_eq_true_eq]
    exact (h p.2 (List.getElem?_mem (List.mem_enum_iff_getElem?.mp hp))).1
  have hr : fleet.enum.filter (fun p => p.2.state = VState.returning) = [] := by
    rw [List.filter_eq_nil_iff]
    intro p hp
    simp only [decide_eq_true_eq]
    exact (h p.2 (List.getElem?_mem (List.mem_enum_iff_getElem?.mp hp))).2
  simp only [dispatch_accident]
  rw [ha, hr]
  simp [pyMinBy, record_accident, event_log_append]

/-- C2 counterexample: an ambulance based at (19.00, 72.87) arrives at the
KEM-hospital coordinate with no open accident.  The code sends it to its
own `base_position` (19.00, 72.87), which is not what `get_preferred_base`
returns from that position (it is not even a member of the preferred-base
set, which contains only (19.00, 72.82) and (19.16, 73.00)). -/
theorem hospital_return_counterexample :
    (to_hospital_tick
        { ambulance_id := 2
          base_position := ((19.00 : ℚ), (72.87 : ℚ))
          current_pos := ((19.0176 : ℚ), (72.8562 : ℚ))
          destination := ((19.0176 : ℚ), (72.8562 : ℚ))
          state := VState.toHospital
          dispatch_time := none }
        [] ⟨⟨0, 0, 0, 0⟩, [], []⟩ 0).1.destination = ((19.00 : ℚ), (72.87 : ℚ)) ∧
    get_preferred_base ((19.0176 : ℚ), (72.8562 : ℚ)) ≠ some ((19.00 : ℚ), (72.87 : ℚ)) := by
  constructor
  · norm_num [to_hospital_tick, move_toward, ARRIVAL_EPS, hospital_arrival, pyMinBy]
  · intro hcontra
    have hmem : ((19.00 : ℚ), (72.87 : ℚ)) ∈ VULNERABLE_BASES :=
      pyMinBy_mem _ _ _ hcontra
    rw [VULNERABLE_BASES] at hmem
    norm_num [Prod.ext_iff] at hmem

/-- C2 (amended): a `to-hospital` vehicle within arrival tolerance of its
destination snaps onto it and, after the fixed drop-off delay: if open
accidents remain, its destination becomes the nearest open accident (first
minimum in list order on ties), its state `en-route` and its dispatch time
reset to now; otherwise its destination becomes the vehicle's own
`base_position` — not the nearest preferred base — and its state
`returning`.  The hospital drop-off counter increments either way. -/
theorem hospital_departure_policy (amb : Ambulance) (g : Globals) (now : ℚ)
    (h1 : |amb.destination.1 - amb.current_pos.1| < ARRIVAL_EPS)
    (h2 : |amb.destination.2 - amb.current_pos.2| < ARRIVAL_EPS) :
    (∀ accidents, to_hospital_tick amb accidents g now =
      hospital_arrival { amb with current_pos := amb.destination } accidents g now) ∧
    (∀ loc rest,
      (hospital_arrival { amb with current_pos := amb.destination } (loc :: rest) g now).1.state =
        VState.enRoute ∧
      (hospital_arrival { amb with current_pos := amb.destination } (loc :: rest) g now).1.dispatch_time =
        some now ∧
      (hospital_arrival { amb with current_pos := amb.destination } (loc :: rest) g now).1.destination ∈
        loc :: rest ∧
      (∀ l ∈ loc :: rest,
        haversine amb.destination
            (hospital_arrival { amb with current_pos := amb.destination } (loc :: rest) g now).1.destination ≤
          haversine amb.destination l) ∧
      (∃ pre post, loc :: rest =
          pre ++ (hospital_arrival { amb with current_pos := amb.destination } (loc :: rest) g now).1.destination :: post ∧
        ∀ l ∈ pre,
          haversine amb.destination
              (hospital_arrival { amb with current_pos := amb.destination } (loc :: rest) g now).1.destination <
            haversine amb.destination l) ∧
      (hospital_arrival { amb with current_pos := amb.destination } (loc :: rest) g now).2.metrics.total_hospital_dropoffs =
        g.metrics.total_hospital_dropoffs + 1) ∧
    ((hospital_arrival { amb with current_pos := amb.destination } [] g now).1.state =
        VState.returning ∧
      (hospital_arrival { amb with current_pos := amb.destination } [] g now).1.destination =
        amb.base_position ∧
      (hospital_arrival { amb with current_pos := amb.destination } [] g now).1.dispatch_time =
        amb.dispatch_time ∧
      (hospital_arrival { amb with current_pos := amb.destination } [] g now).2.metrics.total_hospital_dropoffs =
        g.metrics.total_hospital_dropoffs + 1) := by
  have harr : move_toward amb.current_pos amb.destination = (amb.destination, true) := by
    simp only [move_toward]
    rw [if_pos ⟨h1, h2⟩]
  refine ⟨?_, ?_, ?_⟩
  · intro accidents
    simp [to_hospital_tick, harr]
  · intro loc rest
    obtain ⟨r, hr, hmem, hmin, pre, post, hdec, hpre⟩ :=
      pyMinBy_cons (fun l =>
        haversine ({ amb with current_pos := amb.destination } : Ambulance).current_pos l) loc rest
    simp only [hospital_arrival]
    rw [hr]
    exact ⟨rfl, rfl, hmem, hmin, ⟨pre, post, hdec, hpre⟩, rfl⟩
  · simp only [hospital_arrival]
    rw [show (pyMinBy (fun l =>
      haversine ({ amb with current_pos := amb.destination } : Ambulance).current_pos l)
      ([] : List Coord)) = none from rfl]
    exact ⟨rfl, rfl, rfl, rfl⟩

/-- C6: an en-route arrival with dispatch time `t0` at wall-clock `t1` adds
exactly `t1 - t0` to the response-time sum, increments the dispatch counter
by exactly 1, clears the dispatch time (entering `at accident`), and the
dashboard's average response time is then the sum divided by the count. -/
theorem en_route_arrival_accounting (amb : Ambulance) (g : Globals) (t0 t1 : ℚ)
    (ht : amb.dispatch_time = some t0)
    (h1 : |amb.destination.1 - amb.current_pos.1| < ARRIVAL_EPS)
    (h2 : |amb.destination.2 - amb.current_pos.2| < ARRIVAL_EPS) :
    (en_route_tick amb g t1).2.metrics.total_response_time =
      g.metrics.total_response_time + (t1 - t0) ∧
    (en_route_tick amb g t1).2.metrics.total_dispatches = g.metrics.total_dispatches + 1 ∧
    (en_route_tick amb g t1).1.dispatch_time = none ∧
    (en_route_tick amb g t1).1.state = VState.atAccident ∧
    average_response_time (en_route_tick amb g t1).2.metrics =
      (en_route_tick amb g t1).2.metrics.total_response_time /
        ((en_route_tick amb g t1).2.metrics.total_dispatches : ℚ) := by
  have harr : move_toward amb.current_pos amb.destination = (amb.destination, true) := by
    simp only [move_toward]
    rw [if_pos ⟨h1, h2⟩]
  simp [en_route_tick, harr, ht, average_response_time, Nat.succ_pos]

/-- C7 counterexample: eleven appends starting from the empty log leave
eleven entries in `EVENT_LOG` — the backing log is never trimmed, so its
length does exceed the display bound of 10. -/
theorem event_log_unbounded_counterexample :
    ((List.range 11).foldl (fun l i => event_log_append l (Event.arrivedAtHospital i)) []).length = 11 ∧
    ¬ ((List.range 11).foldl (fun l i => event_log_append l (Event.arrivedAtHospital i)) []).length ≤ 10 := by
  constructor
  · decide
  · decide

/-- C7 (amended): the backing event log is append-only and unbounded (each
append keeps the existing entries as a prefix and grows the length by one);
boundedness holds only for the dashboard view, which shows the most recent
at most 10 entries, newest first — a suffix of the log, reversed, of length
`min 10 (length log)`. -/
theorem event_log_append_and_dashboard_bound (log : List Event) (e : Event) :
    log <+: event_log_append log e ∧
    (event_log_append log e).length = log.length + 1 ∧
    (dashboard_events log).length = min 10 log.length ∧
    (dashboard_events log).length ≤ 10 ∧
    (dashboard_events log).reverse <:+ log := by
  refine ⟨⟨[e], rfl⟩, ?_, ?_, ?_, ?_⟩
  · simp [event_log_append]
  · simp only [dashboard_events, List.length_reverse, List.length_drop]
    omega
  · simp only [dashboard_events, List.length_reverse, List.length_drop]
    omega
  · simp only [dashboard_events, List.reverse_reverse]
    exact List.drop_suffix _ _

theorem hospital_arrival_nil (amb : Ambulance) (g : Globals) (now : ℚ) :
    (hospital_arrival amb [] g now).1.state = VState.returning ∧
    (hospital_arrival amb [] g now).1.destination = amb.base_position ∧
    (hospital_arrival amb [] g now).1.dispatch_time = amb.dispatch_time :=
  ⟨rfl, rfl, rfl⟩

theorem hospital_arrival_cons_state (amb : Ambulance) (g : Globals) (now : ℚ)
    (loc : Coord) (rest : List Coord) :
    (hospital_arrival amb (loc :: rest) g now).1.state = VState.enRoute ∧
    (hospital_arrival amb (loc :: rest) g now).1.dispatch_time = some now := by
  obtain ⟨r, hr, -⟩ := pyMinBy_cons (fun l => haversine amb.current_pos l) loc rest
  simp only [hospital_arrival]
  rw [hr]
  exact ⟨rfl, rfl⟩

theorem dispatch_time_inv_step (l : StepLabel) (a b : Ambulance) (hs : Step l a b)
    (ha : a.dispatch_time.isSome ↔ a.state = VState.enRoute) :
    b.dispatch_time.isSome ↔ b.state = VState.enRoute := by
  cases hs with
  | dispatch_available amb loc now hst => simp [dispatch_update]
  | dispatch_returning amb loc now hst => simp [dispatch_update]
  | tick_available amb accidents now hst => exact ha
  | tick_en_route amb g accidents now hst =>
      by_cases hm : (move_toward a.current_pos a.destination).2 = true
      · cases hdt : a.dispatch_time with
        | some t0 => simp [en_route_tick, hm, hdt]
        | none => simp [en_route_tick, hm, hdt]
      · simp only [en_route_tick, Bool.not_eq_true] at hm ⊢
        rw [hm]
        simpa using ha
  | tick_at_accident amb g accidents now hst =>
      have hnone : a.dispatch_time = none := by
        cases hdt : a.dispatch_time with
        | none => rfl
        | some t =>
            have hen := ha.mp (by simp [hdt])
            rw [hst] at hen
            exact absurd hen (by simp)
      cases hgn : get_nearest_hospital a.current_pos with
      | some d =>
          unfold at_accident_tick
          rw [hgn]
          simp [hnone]
      | none =>
          unfold at_accident_tick
          rw [hgn]
          simp [hnone]
  | tick_to_hospital amb g accidents now hst =>
      have hnone : a.dispatch_time = none := by
        cases hdt : a.dispatch_time with
        | none => rfl
        | some t =>
            have hen := ha.mp (by simp [hdt])
            rw [hst] at hen
            exact absurd hen (by simp)
      by_cases hm : (move_toward a.current_pos a.destination).2 = true
      · have htick : (to_hospital_tick a accidents g now).1 =
            (hospital_arrival
              { a with current_pos := (move_toward a.current_pos a.destination).1 }
              accidents g now).1 := by
          simp [to_hospital_tick, hm]
        rw [htick]
        cases accidents with
        | nil =>
            obtain ⟨hs', -, hd'⟩ := hospital_arrival_nil
              { a with current_pos := (move_toward a.current_pos a.destination).1 } g now
            rw [hs', hd']
            simp [hnone]
        | cons loc rest =>
            obtain ⟨hs', hd'⟩ := hospital_arrival_cons_state
              { a with current_pos := (move_toward a.current_pos a.destination).1 } g now
              loc rest
            rw [hs', hd']
            simp
      · simp only [to_hospital_tick, Bool.not_eq_true] at hm ⊢
        rw [hm]
        simp [hnone, hst]
  | tick_returning amb g accidents now hst =>
      have hnone : a.dispatch_time = none := by
        cases hdt : a.dispatch_time with
        | none => rfl
        | some t =>
            have hen := ha.mp (by simp [hdt])
            rw [hst] at hen
            exact absurd hen (by simp)
      by_cases hm : (move_toward a.current_pos a.destination).2 = true
      · simp [returning_tick, hm, hnone]
      · simp only [returning_tick, Bool.not_eq_true] at hm ⊢
        rw [hm]
        simp [hnone, hst]

theorem dispatch_time_change_characterization (l : StepLabel) (a b : Ambulance)
    (hs : Step l a b) (hch : b.dispatch_time ≠ a.dispatch_time) :
    (∃ loc now, l = StepLabel.dispatch loc now ∧ b.dispatch_time = some now ∧
      b.state = VState.enRoute) ∨
    (∃ accidents now, l = StepLabel.tick accidents now ∧ a.state = VState.toHospital ∧
      b.dispatch_time = some now ∧ b.state = VState.enRoute) ∨
    (∃ accidents now, l = StepLabel.tick accidents now ∧ a.state = VState.enRoute ∧
      b.dispatch_time = none ∧ b.state = VState.atAccident) := by
  cases hs with
  | dispatch_available amb loc now hst => exact Or.inl ⟨loc, now, rfl, rfl, rfl⟩
  | dispatch_returning amb loc now hst => exact Or.inl ⟨loc, now, rfl, rfl, rfl⟩
  | tick_available amb accidents now hst => exact absurd rfl hch
  | tick_en_route amb g accidents now hst =>
      by_cases hm : (move_toward a.current_pos a.destination).2 = true
      · cases hdt : a.dispatch_time with
        | some t0 =>
            refine Or.inr (Or.inr ⟨accidents, now, rfl, hst, ?_, ?_⟩)
            · simp [en_route_tick, hm, hdt]
            · simp [en_route_tick, hm, hdt]
        | none =>
            refine absurd ?_ hch
            simp [en_route_tick, hm, hdt]
      · refine absurd ?_ hch
        simp only [en_route_tick, Bool.not_eq_true] at hm ⊢
        rw [hm]
        simp
  | tick_at_accident amb g accidents now hst =>
      refine absurd ?_ hch
      cases hgn : get_nearest_hospital a.current_pos with
      | some d =>
          unfold at_accident_tick
          rw [hgn]
      | none =>
          unfold at_accident_tick
          rw [hgn]
  | tick_to_hospital amb g accidents now hst =>
      by_cases hm : (move_toward a.current_pos a.destination).2 = true
      · have htick : (to_hospital_tick a accidents g now).1 =
            (hospital_arrival
              { a with current_pos := (move_toward a.current_pos a.destination).1 }
              accidents g now).1 := by
          simp [to_hospital_tick, hm]
        cases accidents with
        | nil =>
            refine absurd ?_ hch
            rw [htick]
            obtain ⟨-, -, hd'⟩ := hospital_arrival_nil
              { a with current_pos := (move_toward a.current_pos a.destination).1 } g now
            rw [hd']
        | cons loc rest =>
            obtain ⟨hs', hd'⟩ := hospital_arrival_cons_state
              { a with current_pos := (move_toward a.current_pos a.destination).1 } g now
              loc rest
            refine Or.inr (Or.inl ⟨loc :: rest, now, rfl, hst, ?_, ?_⟩)
            · rw [htick]; exact hd'
            · rw [htick]; exact hs'
      · refine absurd ?_ hch
        simp only [to_hospital_tick, Bool.not_eq_true] at hm ⊢
        rw [hm]
        simp
  | tick_returning amb g accidents now hst =>
      refine absurd ?_ hch
      by_cases hm : (move_toward a.current_pos a.destination).2 = true
      · simp [returning_tick, hm]
      · simp only [returning_tick, Bool.not_eq_true] at hm ⊢
        rw [hm]
        simp

/-- C4: in every reachable state of an ambulance, the dispatch time is
non-null exactly when the state is en-route (an en-route state is only ever
entered through a dispatch or a post-drop-off re-dispatch, both of which
set it); moreover any step that changes the dispatch time is either a
dispatch (setting it to now and entering en-route), a re-dispatch after a
hospital drop-off (likewise), or an en-route arrival at the incident
(clearing it). -/
theorem dispatch_time_invariant (id : Nat) (base : Coord) (amb : Ambulance)
    (h : ReachableFrom (init_ambulance id base) amb) :
    (amb.dispatch_time.isSome ↔ amb.state = VState.enRoute) ∧
    (∀ l amb', Step l amb amb' → amb'.dispatch_time ≠ amb.dispatch_time →
      (∃ loc now, l = StepLabel.dispatch loc now ∧ amb'.dispatch_time = some now ∧
        amb'.state = VState.enRoute) ∨
      (∃ accidents now, l = StepLabel.tick accidents now ∧ amb.state = VState.toHospital ∧
        amb'.dispatch_time = some now ∧ amb'.state = VState.enRoute) ∨
      (∃ accidents now, l = StepLabel.tick accidents now ∧ amb.state = VState.enRoute ∧
        amb'.dispatch_time = none ∧ amb'.state = VState.atAccident)) := by
  constructor
  · induction h with
    | refl => simp [init_ambulance]
    | tail hab hbc ih =>
        obtain ⟨l, hstep⟩ := hbc
        exact dispatch_time_inv_step l _ _ hstep ih
  · intro l amb' hstep hch
    exact dispatch_time_change_characterization l amb amb' hstep hch

/-- Witness for C1 at a one-ambulance available fleet. -/
theorem dispatch_selects_nearest_candidate_witness :
    specCandidatePool [sample_ambulance] ≠ [] ∧
    (∃ i best,
      (i, best) ∈ specCandidatePool [sample_ambulance] ∧
      [sample_ambulance][i]? = some best ∧
      (∀ p ∈ specCandidatePool [sample_ambulance],
        haversine best.current_pos ((1 : ℚ), (1 : ℚ)) ≤
          haversine p.2.current_pos ((1 : ℚ), (1 : ℚ))) ∧
      (∃ pre post, specCandidatePool [sample_ambulance] = pre ++ (i, best) :: post ∧
        ∀ p ∈ pre, haversine best.current_pos ((1 : ℚ), (1 : ℚ)) <
          haversine p.2.current_pos ((1 : ℚ), (1 : ℚ))) ∧
      (dispatch_accident [sample_ambulance] sample_globals ((1 : ℚ), (1 : ℚ)) 5).1 =
        [sample_ambulance].set i (dispatch_update best ((1 : ℚ), (1 : ℚ)) 5) ∧
      (dispatch_accident [sample_ambulance] sample_globals ((1 : ℚ), (1 : ℚ)) 5).2.2 =
        some (dispatch_update best ((1 : ℚ), (1 : ℚ)) 5) ∧
      (dispatch_update best ((1 : ℚ), (1 : ℚ)) 5).destination = ((1 : ℚ), (1 : ℚ)) ∧
      (dispatch_update best ((1 : ℚ), (1 : ℚ)) 5).state = VState.enRoute ∧
      (dispatch_update best ((1 : ℚ), (1 : ℚ)) 5).dispatch_time = some 5) := by
  have h : specCandidatePool [sample_ambulance] ≠ [] := by decide
  exact ⟨h, dispatch_selects_nearest_candidate [sample_ambulance] sample_globals
    ((1 : ℚ), (1 : ℚ)) 5 h⟩

/-- Witness for the amended C2 at an ambulance already at its destination. -/
theorem hospital_departure_policy_witness :
    |sample_ambulance.destination.1 - sample_ambulance.current_pos.1| < ARRIVAL_EPS ∧
    |sample_ambulance.destination.2 - sample_ambulance.current_pos.2| < ARRIVAL_EPS ∧
    ((∀ accidents, to_hospital_tick sample_ambulance accidents sample_globals 7 =
      hospital_arrival { sample_ambulance with current_pos := sample_ambulance.destination }
        accidents sample_globals 7) ∧
    (∀ loc rest,
      (hospital_arrival { sample_ambulance with current_pos := sample_ambulance.destination }
          (loc :: rest) sample_globals 7).1.state = VState.enRoute ∧
      (hospital_arrival { sample_ambulance with current_pos := sample_ambulance.destination }
          (loc :: rest) sample_globals 7).1.dispatch_time = some 7 ∧
      (hospital_arrival { sample_ambulance with current_pos := sample_ambulance.destination }
          (loc :: rest) sample_globals 7).1.destination ∈ loc :: rest ∧
      (∀ l ∈ loc :: rest,
        haversine sample_ambulance.destination
            (hospital_arrival { sample_ambulance with current_pos := sample_ambulance.destination }
              (loc :: rest) sample_globals 7).1.destination ≤
          haversine sample_ambulance.destination l) ∧
      (∃ pre post, loc :: rest =
          pre ++ (hospital_arrival { sample_ambulance with current_pos := sample_ambulance.destination }
            (loc :: rest) sample_globals 7).1.destination :: post ∧
        ∀ l ∈ pre,
          haversine sample_ambulance.destination
              (hospital_arrival { sample_ambulance with current_pos := sample_ambulance.destination }
                (loc :: rest) sample_globals 7).1.destination <
            haversine sample_ambulance.destination l) ∧
      (hospital_arrival { sample_ambulance with current_pos := sample_ambulance.destination }
          (loc :: rest) sample_globals 7).2.metrics.total_hospital_dropoffs =
        sample_globals.metrics.total_hospital_dropoffs + 1) ∧
    ((hospital_arrival { sample_ambulance with current_pos := sample_ambulance.destination }
        [] sample_globals 7).1.state = VState.returning ∧
      (hospital_arrival { sample_ambulance with current_pos := sample_ambulance.destination }
        [] sample_globals 7).1.destination = sample_ambulance.base_position ∧
      (hospital_arrival { sample_ambulance with current_pos := sample_ambulance.destination }
        [] sample_globals 7).1.dispatch_time = sample_ambulance.dispatch_time ∧
      (hospital_arrival { sample_ambulance with current_pos := sample_ambulance.destination }
        [] sample_globals 7).2.metrics.total_hospital_dropoffs =
        sample_globals.metrics.total_hospital_dropoffs + 1)) := by
  have h1 : |sample_ambulance.destination.1 - sample_ambulance.current_pos.1| < ARRIVAL_EPS := by
    norm_num [sample_ambulance, init_ambulance, ARRIVAL_EPS]
  have h2 : |sample_ambulance.destination.2 - sample_ambulance.current_pos.2| < ARRIVAL_EPS := by
    norm_num [sample_ambulance, init_ambulance, ARRIVAL_EPS]
  exact ⟨h1, h2, hospital_departure_policy sample_ambulance sample_globals 7 h1 h2⟩

/-- Witness for C3 at a one-ambulance fleet that is busy en-route. -/
theorem dispatch_no_capacity_witness :
    (∀ amb ∈ [sample_busy], amb.state ≠ VState.available ∧ amb.state ≠ VState.returning) ∧
    dispatch_accident [sample_busy] sample_globals ((1 : ℚ), (1 : ℚ)) 5 =
      ([sample_busy],
       { sample_globals with
         metrics := { sample_globals.metrics with
           total_accidents := sample_globals.metrics.total_accidents + 1 }
         event_log := sample_globals.event_log ++ [Event.noAmbulance ((1 : ℚ), (1 : ℚ))]
         accident_timestamps := sample_globals.accident_timestamps ++ [(5 : ℚ)] },
       none) := by
  have h : ∀ amb ∈ [sample_busy],
      amb.state ≠ VState.available ∧ amb.state ≠ VState.returning := by decide
  exact ⟨h, dispatch_no_capacity [sample_busy] sample_globals ((1 : ℚ), (1 : ℚ)) 5 h⟩

/-- Witness for C4 at the freshly initialised ambulance. -/
theorem dispatch_time_invariant_witness :
    ReachableFrom (init_ambulance 1 ((0 : ℚ), (0 : ℚ))) (init_ambulance 1 ((0 : ℚ), (0 : ℚ))) ∧
    (((init_ambulance 1 ((0 : ℚ), (0 : ℚ))).dispatch_time.isSome ↔
        (init_ambulance 1 ((0 : ℚ), (0 : ℚ))).state = VState.enRoute) ∧
      (∀ l amb', Step l (init_ambulance 1 ((0 : ℚ), (0 : ℚ))) amb' →
        amb'.dispatch_time ≠ (init_ambulance 1 ((0 : ℚ), (0 : ℚ))).dispatch_time →
        (∃ loc now, l = StepLabel.dispatch loc now ∧ amb'.dispatch_time = some now ∧
          amb'.state = VState.enRoute) ∨
        (∃ accidents now, l = StepLabel.tick accidents now ∧
          (init_ambulance 1 ((0 : ℚ), (0 : ℚ))).state = VState.toHospital ∧
          amb'.dispatch_time = some now ∧ amb'.state = VState.enRoute) ∨
        (∃ accidents now, l = StepLabel.tick accidents now ∧
          (init_ambulance 1 ((0 : ℚ), (0 : ℚ))).state = VState.enRoute ∧
          amb'.dispatch_time = none ∧ amb'.state = VState.atAccident))) := by
  have h : ReachableFrom (init_ambulance 1 ((0 : ℚ), (0 : ℚ)))
      (init_ambulance 1 ((0 : ℚ), (0 : ℚ))) := Relation.ReflTransGen.refl
  exact ⟨h, dispatch_time_invariant 1 ((0 : ℚ), (0 : ℚ)) (init_ambulance 1 ((0 : ℚ), (0 : ℚ))) h⟩

/-- Witness for C6: dispatched at 0, arriving at 12, the response-time sum
gains exactly 12. -/
theorem en_route_arrival_accounting_witness :
    sample_dispatched.dispatch_time = some 0 ∧
    |sample_dispatched.destination.1 - sample_dispatched.current_pos.1| < ARRIVAL_EPS ∧
    |sample_dispatched.destination.2 - sample_dispatched.current_pos.2| < ARRIVAL_EPS ∧
    ((en_route_tick sample_dispatched sample_globals 12).2.metrics.total_response_time =
      sample_globals.metrics.total_response_time + (12 - 0) ∧
    (en_route_tick sample_dispatched sample_globals 12).2.metrics.total_dispatches =
      sample_globals.metrics.total_dispatches + 1 ∧
    (en_route_tick sample_dispatched sample_globals 12).1.dispatch_time = none ∧
    (en_route_tick sample_dispatched sample_globals 12).1.state = VState.atAccident ∧
    average_response_time (en_route_tick sample_dispatched sample_globals 12).2.metrics =
      (en_route_tick sample_dispatched sample_globals 12).2.metrics.total_response_time /
        ((en_route_tick sample_dispatched sample_globals 12).2.metrics.total_dispatches : ℚ)) := by
  have ht : sample_dispatched.dispatch_time = some 0 := rfl
  have h1 : |sample_dispatched.destination.1 - sample_dispatched.current_pos.1| < ARRIVAL_EPS := by
    norm_num [sample_dispatched, sample_ambulance, init_ambulance, ARRIVAL_EPS]
  have h2 : |sample_dispatched.destination.2 - sample_dispatched.current_pos.2| < ARRIVAL_EPS := by
    norm_num [sample_dispatched, sample_ambulance, init_ambulance, ARRIVAL_EPS]
  exact ⟨ht, h1, h2,
    en_route_arrival_accounting sample_dispatched sample_globals 0 12 ht h1 h2⟩

/-- Witness for C9 at a step that has already arrived. -/
theorem move_toward_idempotent_at_destination_witness :
    (move_toward ((0 : ℚ), (0 : ℚ)) ((0 : ℚ), (0 : ℚ))).2 = true ∧
    ((move_toward ((0 : ℚ), (0 : ℚ)) ((0 : ℚ), (0 : ℚ))).1 = ((0 : ℚ), (0 : ℚ)) ∧
    ∀ n : Nat,
      (fun p => (move_toward p ((0 : ℚ), (0 : ℚ))).1)^[n]
          (move_toward ((0 : ℚ), (0 : ℚ)) ((0 : ℚ), (0 : ℚ))).1 =
        (move_toward ((0 : ℚ), (0 : ℚ)) ((0 : ℚ), (0 : ℚ))).1) := by
  have h : (move_toward ((0 : ℚ), (0 : ℚ)) ((0 : ℚ), (0 : ℚ))).2 = true := by
    norm_num [move_toward, ARRIVAL_EPS]
  exact ⟨h, move_toward_idempotent_at_destination ((0 : ℚ), (0 : ℚ)) ((0 : ℚ), (0 : ℚ)) h⟩

/-- Witness for the amended C10 at a non-snapping step from (0,0) toward (1,1). -/
theorem move_toward_no_overshoot_witness :
    (move_toward ((0 : ℚ), (0 : ℚ)) ((1 : ℚ), (1 : ℚ))).2 = false ∧
    ((1 : ℚ) - (move_toward ((0 : ℚ), (0 : ℚ)) ((1 : ℚ), (1 : ℚ))).1.1 =
      (1 - 0.2) * ((1 : ℚ) - (0 : ℚ)) ∧
    (1 : ℚ) - (move_toward ((0 : ℚ), (0 : ℚ)) ((1 : ℚ), (1 : ℚ))).1.2 =
      (1 - 0.2) * ((1 : ℚ) - (0 : ℚ)) ∧
    |(1 : ℚ) - (move_toward ((0 : ℚ), (0 : ℚ)) ((1 : ℚ), (1 : ℚ))).1.1| ≤
      |(1 : ℚ) - (0 : ℚ)| ∧
    |(1 : ℚ) - (move_toward ((0 : ℚ), (0 : ℚ)) ((1 : ℚ), (1 : ℚ))).1.2| ≤
      |(1 : ℚ) - (0 : ℚ)| ∧
    ((1 : ℚ) ≠ (0 : ℚ) →
      |(1 : ℚ) - (move_toward ((0 : ℚ), (0 : ℚ)) ((1 : ℚ), (1 : ℚ))).1.1| <
        |(1 : ℚ) - (0 : ℚ)|) ∧
    ((1 : ℚ) ≠ (0 : ℚ) →
      |(1 : ℚ) - (move_toward ((0 : ℚ), (0 : ℚ)) ((1 : ℚ), (1 : ℚ))).1.2| <
        |(1 : ℚ) - (0 : ℚ)|) ∧
    min (0 : ℚ) (1 : ℚ) ≤ (move_toward ((0 : ℚ), (0 : ℚ)) ((1 : ℚ), (1 : ℚ))).1.1 ∧
    (move_toward ((0 : ℚ), (0 : ℚ)) ((1 : ℚ), (1 : ℚ))).1.1 ≤ max (0 : ℚ) (1 : ℚ) ∧
    min (0 : ℚ) (1 : ℚ) ≤ (move_toward ((0 : ℚ), (0 : ℚ)) ((1 : ℚ), (1 : ℚ))).1.2 ∧
    (move_toward ((0 : ℚ), (0 : ℚ)) ((1 : ℚ), (1 : ℚ))).1.2 ≤ max (0 : ℚ) (1 : ℚ)) := by
  have h : (move_toward ((0 : ℚ), (0 : ℚ)) ((1 : ℚ), (1 : ℚ))).2 = false := by
    norm_num [move_toward, ARRIVAL_EPS]
  exact ⟨h, move_toward_no_overshoot ((0 : ℚ), (0 : ℚ)) ((1 : ℚ), (1 : ℚ)) h⟩

end DERVRS
